import Mathlib

/-!
Shallow embedding of the Go-Enterprise-APIs account transaction pipeline.

Modelling conventions:
* Go strings are modelled as Lean `String` over ASCII characters; the byte value
  of a character is `c.toNat % 256` (all protocol strings are ASCII).
* Decoded JSON values are modelled by the inductive `JVal`; numbers are
  restricted to integers (every value inspected by the code is integral) and
  arrays are omitted (never inspected on any decision path).
* An HTTP exchange is modelled by the explicit `HttpResult` argument: either a
  transport failure, or a status code together with the decoded body
  (`none` when the body does not decode as a JSON object).
* The SHA-256 digest and the ECDSA signature primitive are abstract function
  parameters (the spec treats them as black-box capabilities); hex
  encoding/decoding of bytes is implemented concretely.
* Impure inputs (the wall-clock timestamp) are explicit parameters.

The three account variants in the repository are embedded separately:
`Main` (package circular_enterprise_apis), `Cep` (package cepaccount,
lib/cepaccount) and `Svc` (package services).
-/

/-- `[0-9a-fA-F]`, by ASCII code (source: `IsValidAddress` regexp). -/
def isHexDigit (c : Char) : Bool :=
  (48 ≤ c.toNat && c.toNat ≤ 57) || (97 ≤ c.toNat && c.toNat ≤ 102) ||
    (65 ≤ c.toNat && c.toNat ≤ 70)

/-- `[0-9a-f]`: a lower-case hex digit. -/
def isLowerHexDigit (c : Char) : Bool :=
  (48 ≤ c.toNat && c.toNat ≤ 57) || (97 ≤ c.toNat && c.toNat ≤ 102)

/-- `[0-9A-F]`: an upper-case hex digit. -/
def isUpperHexDigit (c : Char) : Bool :=
  (48 ≤ c.toNat && c.toNat ≤ 57) || (65 ≤ c.toNat && c.toNat ≤ 70)

/-- ASCII lower-casing of one character (`strings.ToLower` on ASCII input). -/
def lowerChar (c : Char) : Char :=
  if 65 ≤ c.toNat ∧ c.toNat ≤ 90 then Char.ofNat (c.toNat + 32) else c

/-- ASCII upper-casing of one character (`strings.ToUpper` on ASCII input). -/
def upperChar (c : Char) : Char :=
  if 97 ≤ c.toNat ∧ c.toNat ≤ 122 then Char.ofNat (c.toNat - 32) else c

/-- Drop a leading `0x` / `0X` (the prefix-stripping step of `utils.HexFix`). -/
def strip0x : List Char → List Char
  | '0' :: 'x' :: rest => rest
  | '0' :: 'X' :: rest => rest
  | l => l

/-- Core of `utils.HexFix`: strip the `0x`/`0X` prefix, lower-case, and prepend
`'0'` when the length is odd. -/
def hexFixChars (l : List Char) : List Char :=
  let lowered := (strip0x l).map lowerChar
  if lowered.length % 2 = 1 then '0' :: lowered else lowered

/-- `utils.HexFix` (src/unnamed/part_012, lines 55-74). -/
def HexFix (s : String) : String :=
  if s = "" then "" else String.mk (hexFixChars s.data)

/-- Lower-case hex digit of a value `< 16` (`encoding/hex` digit table). -/
def hexDigitChar (n : Nat) : Char :=
  if n < 10 then Char.ofNat (48 + n) else Char.ofNat (87 + n)

/-- `encoding/hex` encoding of one byte: two lower-case hex digits. -/
def encodeByteChars (b : Nat) : List Char :=
  [hexDigitChar (b / 16), hexDigitChar (b % 16)]

/-- `hex.EncodeToString`: lower-case hex of a byte sequence. -/
def hexEncodeBytes (bs : List Nat) : String :=
  String.mk (bs.flatMap encodeByteChars)

/-- `utils.StringToHex` (src/unnamed/part_012, lines 93-100): `encoding/hex`
encoding of the bytes of the string, then `strings.ToUpper`. -/
def StringToHex (s : String) : String :=
  String.mk ((((s.data.map fun c => c.toNat % 256).flatMap encodeByteChars).map upperChar))

/-- Value of a hex digit, either case (`encoding/hex` decoding). -/
def hexDigitVal (c : Char) : Option Nat :=
  if 48 ≤ c.toNat ∧ c.toNat ≤ 57 then some (c.toNat - 48)
  else if 97 ≤ c.toNat ∧ c.toNat ≤ 102 then some (c.toNat - 87)
  else if 65 ≤ c.toNat ∧ c.toNat ≤ 70 then some (c.toNat - 55)
  else none

/-- `hex.DecodeString` on a character list: fails on odd length or a non-hex
character. -/
def hexDecodeChars : List Char → Option (List Nat)
  | [] => some []
  | [_] => none
  | c1 :: c2 :: rest =>
    match hexDigitVal c1, hexDigitVal c2, hexDecodeChars rest with
    | some hi, some lo, some bs => some ((16 * hi + lo) :: bs)
    | _, _, _ => none

/-- `hex.DecodeString`. -/
def hexDecode (s : String) : Option (List Nat) :=
  hexDecodeChars s.data

/-- Decoded JSON values (`map[string]interface{}` entries after
`json.Unmarshal`). -/
inductive JVal where
  | null
  | bool (b : Bool)
  | num (n : Int)
  | str (s : String)
  | obj (fields : List (String × JVal))

/-- Result of one HTTP call: a transport/read failure, or a status code with
the decoded JSON-object body (`none` when the body is not a JSON object). -/
inductive HttpResult where
  | err
  | ok (status : Nat) (body : Option (List (String × JVal)))

namespace Main

/-- Library version constant (src/unnamed/part_013). -/
def LibVersion : String := "1.0.13"

/-- Default blockchain identifier (src/unnamed/part_013). -/
def DefaultChain : String :=
  "0x8a20baa40c45dc5055aeb26197c203e576ef389d9acb171bd62da11dc5ad72b2"

/-- Default NAG base URL (src/unnamed/part_013). -/
def DefaultNAG : String := "https://nag.circularlabs.io/NAG.php?cep="

/-- Network discovery base URL (src/unnamed/part_013). -/
def NetworkURL : String := "https://circularlabs.io/network/getNAG?network="

/-- `CEPAccount` of package circular_enterprise_apis
(src/unnamed/part_010, lines 25-38). -/
structure CEPAccount where
  Address : String
  PublicKey : String
  Info : Option String
  CodeVersion : String
  LastError : String
  NAGURL : String
  NetworkNode : String
  Blockchain : String
  LatestTxID : String
  Nonce : Int
  IntervalSec : Int
  NetworkURL : String

/-- `NewCEPAccount` (src/unnamed/part_010, lines 48-57). -/
def NewCEPAccount : CEPAccount where
  Address := ""
  PublicKey := ""
  Info := none
  CodeVersion := LibVersion
  LastError := ""
  NAGURL := DefaultNAG
  NetworkNode := ""
  Blockchain := DefaultChain
  LatestTxID := ""
  Nonce := 0
  IntervalSec := 2
  NetworkURL := Main.NetworkURL

/-- `CEPAccount.Open` (src/unnamed/part_010, lines 81-88): only rejects the
empty address. -/
def CEPAccount.Open (a : CEPAccount) (address : String) : CEPAccount × Bool :=
  if address = "" then ({ a with LastError := "invalid address format" }, false)
  else ({ a with Address := address }, true)

/-- `CEPAccount.Close` (src/unnamed/part_010, lines 95-105): zeroes the listed
fields; `LastError`, `CodeVersion` and `NetworkURL` are not touched. -/
def CEPAccount.Close (a : CEPAccount) : CEPAccount :=
  { a with
    Address := "", PublicKey := "", Info := none, NAGURL := "",
    NetworkNode := "", Blockchain := "", LatestTxID := "", Nonce := 0,
    IntervalSec := 0 }

/-- JSON serialization of the action payload object
`map[string]string(Action: "CP_CERTIFICATE", Data: StringToHex pdata)`;
`json.Marshal` emits map keys in sorted order, so `Action` precedes `Data`
(src/unnamed/part_010, lines 305-309). -/
def payloadJson (pdata : String) : String :=
  "\x7b\"Action\":\"CP_CERTIFICATE\",\"Data\":\"" ++ StringToHex pdata ++ "\"\x7d"

/-- The string hashed by `SubmitCertificate`
(src/unnamed/part_010, line 313). -/
def CEPAccount.submitStrToHash (a : CEPAccount) (pdata timestamp : String) : String :=
  HexFix a.Blockchain ++ HexFix a.Address ++ HexFix a.Address ++
    StringToHex (payloadJson pdata) ++ toString a.Nonce ++ timestamp

/-- The transaction ID computed by `SubmitCertificate`
(src/unnamed/part_010, lines 314-315). -/
def CEPAccount.submitTxID (a : CEPAccount) (pdata timestamp : String)
    (sha256 : String → List Nat) : String :=
  hexEncodeBytes (sha256 (a.submitStrToHash pdata timestamp))

/-- `CEPAccount.signData` (src/unnamed/part_010, lines 267-282): fails when the
account is closed or the private key is not valid hex; otherwise signs the
SHA-256 digest of the message. The error detail string is elided. -/
def CEPAccount.signData (a : CEPAccount) (message privateKeyHex : String)
    (sha256 : String → List Nat) (ecdsaSign : List Nat → List Nat → String) :
    Option String :=
  if a.Address = "" then none
  else
    match hexDecode (HexFix privateKeyHex) with
    | none => none
    | some keyBytes => some (ecdsaSign keyBytes (sha256 message))

/-- `CEPAccount.SubmitCertificate` (src/unnamed/part_010, lines 299-388).
`json.Marshal` of a `map[string]string` cannot fail, so the marshal error
branch is dead code and is not represented. Dynamic parts of the `LastError`
messages are elided. -/
def CEPAccount.SubmitCertificate (a : CEPAccount) (pdata privateKeyHex timestamp : String)
    (sha256 : String → List Nat) (ecdsaSign : List Nat → List Nat → String)
    (resp : HttpResult) : CEPAccount :=
  if a.Address = "" then { a with LastError := "Account is not open" }
  else
    let id := a.submitTxID pdata timestamp sha256
    match a.signData id privateKeyHex sha256 ecdsaSign with
    | none => { a with LastError := "failed to sign data: invalid private key hex string" }
    | some _signature =>
      match resp with
      | .err => { a with LastError := "failed to submit certificate: transport error" }
      | .ok status body =>
        if status ≠ 200 then
          { a with LastError := "network returned an error - status: " ++ toString status }
        else
          match body with
          | none => { a with LastError := "failed to decode response JSON" }
          | some responseMap =>
            match responseMap.lookup "Result" with
            | some (.num 200) => { a with LatestTxID := id, Nonce := a.Nonce + 1 }
            | _ =>
              match responseMap.lookup "Response" with
              | some (.str errMsg) =>
                { a with LastError := "certificate submission failed: " ++ errMsg }
              | _ =>
                { a with LastError := "certificate submission failed with non-200 result code" }

/-- Nonce extraction of `UpdateAccount` (src/unnamed/part_010, lines 221-233):
the `Response` value is re-marshalled and decoded into `struct Nonce int`.
A missing `Response`, a `null`, or an object without `Nonce` all yield the Go
zero value `0`; a value of the wrong shape is a decode error (`none`). -/
def nonceField (response : Option JVal) : Option Int :=
  match response with
  | some (.obj fields) =>
    match fields.lookup "Nonce" with
    | some (.num n) => some n
    | some _ => none
    | none => some 0
  | some .null => some 0
  | none => some 0
  | some _ => none

/-- `CEPAccount.UpdateAccount` (src/unnamed/part_010, lines 151-251). A body
whose `Result` field is not a number fails the `json.Unmarshal` into
`struct Result int; Response interface` and takes the decode-error path. -/
def CEPAccount.UpdateAccount (a : CEPAccount) (resp : HttpResult) : CEPAccount × Bool :=
  if a.Address = "" then ({ a with LastError := "Account not open" }, false)
  else
    match resp with
    | .err => ({ a with LastError := "http request failed" }, false)
    | .ok status body =>
      if status ≠ 200 then
        ({ a with LastError := "network request failed with status" }, false)
      else
        match body with
        | none => ({ a with LastError := "failed to decode response body" }, false)
        | some responseData =>
          match responseData.lookup "Result" with
          | some (.num 200) =>
            match nonceField (responseData.lookup "Response") with
            | some n => ({ a with Nonce := n + 1 }, true)
            | none => ({ a with LastError := "failed to decode nonce response" }, false)
          | some (.num 114) => ({ a with LastError := "Rejected: Invalid Blockchain" }, false)
          | some (.num 115) => ({ a with LastError := "Rejected: Insufficient balance" }, false)
          | some (.num _) =>
            match responseData.lookup "Response" with
            | some (.str errMsg) =>
              ({ a with LastError := "failed to update account: " ++ errMsg }, false)
            | _ => ({ a with LastError := "failed to update account: unknown error response" }, false)
          | none =>
            match responseData.lookup "Response" with
            | some (.str errMsg) =>
              ({ a with LastError := "failed to update account: " ++ errMsg }, false)
            | _ => ({ a with LastError := "failed to update account: unknown error response" }, false)
          | some _ => ({ a with LastError := "failed to decode response body" }, false)

end Main

/-- Result of a polling wait (`WaitForTransactionOutcome`). `fuelOut` is a
model artifact: it marks recursion-bound exhaustion and is unreachable from
the top-level wait functions whenever the interval is at least one second. -/
inductive WaitResult where
  | resolved (outcome : List (String × JVal))
  | timeout
  | errored
  | fuelOut

/-- JSON string escaping as performed by `json.Marshal` on the characters that
arise here: quote and backslash. (Control-character and HTML escapes are not
modelled; no protocol string contains them under the ASCII model.) -/
def jsonEscapeChars : List Char → List Char
  | [] => []
  | c :: rest =>
    if c = '"' then '\\' :: '"' :: jsonEscapeChars rest
    else if c = '\\' then '\\' :: '\\' :: jsonEscapeChars rest
    else c :: jsonEscapeChars rest

/-- A JSON string literal: escaped content between quotes. -/
def jsonStr (s : String) : String :=
  "\"" ++ String.mk (jsonEscapeChars s.data) ++ "\""

namespace Cep

/-- Library version constant of package utils (lib/utils); the source of that
file is absent from src, the value plays no role in any claim. -/
def LIB_VERSION : String := "1.0.13"

/-- Default NAG URL constant (values as in the internal constants package,
src/unnamed/part_001; the lib/utils source is absent from src and the exact
value plays no role in any claim). -/
def DEFAULT_NAG : String := "https://nag.circular.io/"

/-- Default chain constant (same provenance remark as `DEFAULT_NAG`). -/
def DEFAULT_CHAIN : String := "Circular"

/-- `CEPAccount` of package cepaccount (src/unnamed/part_005, lines 17-30). -/
structure Account where
  address : String
  publicKey : String
  info : Option String
  codeVersion : String
  lastError : String
  nagUrl : String
  networkNode : String
  blockchain : String
  latestTxID : String
  nonce : Int
  data : List (String × JVal)
  intervalSec : Int

/-- `NewCEPAccount` (src/unnamed/part_005, lines 33-41). -/
def NewCEPAccount : Account where
  address := ""
  publicKey := ""
  info := none
  codeVersion := LIB_VERSION
  lastError := ""
  nagUrl := DEFAULT_NAG
  networkNode := ""
  blockchain := DEFAULT_CHAIN
  latestTxID := ""
  nonce := 0
  data := []
  intervalSec := 2

/-- `Account.Open` (src/unnamed/part_005, lines 44-47): stores the address
unconditionally and always succeeds. -/
def Account.Open (a : Account) (accountAddress : String) : Account × Bool :=
  ({ a with address := accountAddress }, true)

/-- `Account.Close` (src/unnamed/part_005, lines 50-62): resets every field
except `codeVersion` to the value `NewCEPAccount` gives it. -/
def Account.Close (a : Account) : Account :=
  { a with
    address := "", publicKey := "", info := none, lastError := "",
    nagUrl := DEFAULT_NAG, networkNode := "", blockchain := DEFAULT_CHAIN,
    latestTxID := "", data := [], intervalSec := 2, nonce := 0 }

/-- `getPublicKey` mock (src/unnamed/part_006): always succeeds. -/
def getPublicKey (privateKey : String) : String :=
  "pubkey_for_" ++ privateKey

/-- `sign` mock (src/unnamed/part_006): hex encoding of the SHA-256 of the
message; the private key is unused by the mock and always accepted. -/
def sign (sha256 : String → List Nat) (_privateKey message : String) : String :=
  hexEncodeBytes (sha256 message)

/-- `CCertificate.GetJSONCertificate` (src/models/certificate.go):
`json.Marshal` of the certificate map; map keys are emitted in sorted order
(`data` < `previousBlock` < `previousTxID` < `version`). -/
def certJson (dataHex previousTxID previousBlock version : String) : String :=
  "\x7b\"data\":" ++ jsonStr dataHex ++ ",\"previousBlock\":" ++ jsonStr previousBlock ++
    ",\"previousTxID\":" ++ jsonStr previousTxID ++ ",\"version\":" ++ jsonStr version ++
    "\x7d"

/-- The transaction payload marshalled in `SubmitCertificate`
(src/unnamed/part_005, lines 217-225); `json.Marshal` sorts the map keys. -/
def txPayloadJson (jsonCert blockchain address publicKey : String) (nonce : Int)
    (version timestamp : String) : String :=
  "\x7b\"Address\":" ++ jsonStr address ++ ",\"Blockchain\":" ++ jsonStr blockchain ++
    ",\"Certificate\":" ++ jsonStr jsonCert ++ ",\"Nonce\":" ++ toString nonce ++
    ",\"PublicKey\":" ++ jsonStr publicKey ++ ",\"Timestamp\":" ++ jsonStr timestamp ++
    ",\"Version\":" ++ jsonStr version ++ "\x7d"

/-- `Account.SubmitCertificate` (src/unnamed/part_005, lines 196-286).
The certificate is built as a zero-value struct (`version` is empty), the
public key is stored on the account before the network call, and — unlike the
main variant — the HTTP status code is never inspected and `latestTxID` is
taken from the server response. `json.Marshal` of maps of strings cannot
fail, so those error branches are dead code. Returns the updated account, the
decoded response map and the error, mirroring the Go
`(map[string]interface, error)` pair. -/
def Account.SubmitCertificate (a : Account) (data privateKey timestamp : String)
    (sha256 : String → List Nat) (resp : HttpResult) :
    Account × Option (List (String × JVal)) × Option String :=
  let jsonCert := certJson (StringToHex data) a.latestTxID "" ""
  let a1 := { a with publicKey := getPublicKey privateKey }
  let payload := txPayloadJson jsonCert (HexFix a1.blockchain) (HexFix a1.address)
      (HexFix a1.publicKey) a1.nonce a1.codeVersion timestamp
  let _signature := sign sha256 privateKey payload
  match resp with
  | .err =>
    ({ a1 with lastError := "Failed to submit certificate: transport error" }, none,
      some "Failed to submit certificate")
  | .ok _status body =>
    match body with
    | none =>
      ({ a1 with lastError := "Failed to parse JSON response" }, none,
        some "Failed to parse JSON response")
    | some result =>
      match result.lookup "Result" with
      | some (.num 200) =>
        match result.lookup "Response" with
        | some (.obj response) =>
          match response.lookup "TxID" with
          | some (.str txID) =>
            ({ a1 with latestTxID := txID, nonce := a1.nonce + 1 }, some result, none)
          | _ => (a1, some result, none)
        | _ => (a1, some result, none)
      | _ =>
        ({ a1 with lastError := "Certificate submission failed" }, some result,
          some "Certificate submission failed")

/-- Terminal check of `WaitForTransactionOutcome` (src/unnamed/part_005,
lines 334-340): the outcome's `Response.Status` is `"Confirmed"` or
`"Failed"`. -/
def isTerminalOutcome (outcome : List (String × JVal)) : Bool :=
  match outcome.lookup "Response" with
  | some (.obj response) =>
    match response.lookup "Status" with
    | some (.str status) => status == "Confirmed" || status == "Failed"
    | _ => false
  | _ => false

/-- Polling loop of `WaitForTransactionOutcome` (src/unnamed/part_005,
lines 329-350). `polls k` is the result of the `k`-th `GetTransactionOutcome`
call: `none` models a call that returned an error, `some body` the decoded
response. Time is modelled by counting sleeps: poll `k` runs after `k` sleeps
of `intervalSec` seconds (the calls themselves take no model time), so the
`time.Since(startTime) > timeoutSec` check after poll `k` reads
`k * intervalSec > timeoutSec`. A poll that returns an error is ignored and
polling continues. `fuel` bounds the recursion; the timeout check stops the
loop within `timeoutSec + 2` iterations whenever `intervalSec ≥ 1`. -/
def waitLoop (polls : Nat → Option (List (String × JVal)))
    (timeoutSec intervalSec : Nat) : Nat → Nat → WaitResult
  | _, 0 => .fuelOut
  | k, fuel + 1 =>
    let step :=
      if k * intervalSec > timeoutSec then WaitResult.timeout
      else waitLoop polls timeoutSec intervalSec (k + 1) fuel
    match polls k with
    | some outcome => if isTerminalOutcome outcome then .resolved outcome else step
    | none => step

/-- `Account.WaitForTransactionOutcome` (src/unnamed/part_005, lines 329-350);
`intervalSec` stands for the account's `intervalSec` field. -/
def WaitForTransactionOutcome (polls : Nat → Option (List (String × JVal)))
    (timeoutSec intervalSec : Nat) : WaitResult :=
  waitLoop polls timeoutSec intervalSec 0 (timeoutSec + 2)

end Cep

namespace Svc

/-- `internal.IsValidAddress` (src/unnamed/part_001, lines 40-61): `0x` prefix
(lower-case `x` only), then exactly 40 hex characters. (The regexp
`[0-9a-fA-F]+` needs at least one character, which the length-40 check already
guarantees.) -/
def IsValidAddress (address : String) : Bool :=
  match address.data with
  | '0' :: 'x' :: hexPart => hexPart.length == 40 && hexPart.all isHexDigit
  | _ => false

/-- `internal.IsValidPrivateKey` (src/unnamed/part_001, lines 64-96):
optional `0x` prefix, exactly 64 hex characters, and none of the listed
degenerate repeated patterns. -/
def IsValidPrivateKey (privateKey : String) : Bool :=
  if privateKey = "" then false
  else
    let hexPart :=
      match privateKey.data with
      | '0' :: 'x' :: rest => rest
      | l => l
    hexPart.length == 64 && hexPart.all isHexDigit &&
      !(hexPart == List.replicate 64 '0') && !(hexPart == List.replicate 64 'f') &&
      !(hexPart == List.replicate 64 'F') && !(hexPart == List.replicate 64 '1') &&
      !(hexPart == List.replicate 64 'a') && !(hexPart == List.replicate 64 'A') &&
      !(hexPart == List.replicate 64 '9')

/-- `CEPAccount` of package services (src/unnamed/part_004, lines 15-29). -/
structure Account where
  address : String
  publicKey : String
  info : Option String
  codeVersion : String
  lastError : String
  nagUrl : String
  networkNode : String
  blockchain : String
  latestTxID : String
  nonce : Int
  data : List (String × JVal)
  intervalSec : Int

/-- `Account.Open` (src/unnamed/part_004, lines 42-50): validates the address
format before storing it. -/
def Account.Open (a : Account) (accountAddress : String) : Account × Bool :=
  if !IsValidAddress accountAddress then
    ({ a with lastError := "Invalid address format" }, false)
  else ({ a with address := accountAddress }, true)

/-- `internal.GetPublicKey` mock (src/internal/crypto.go): always succeeds. -/
def GetPublicKey (privateKey : String) : String :=
  "pubkey_for_" ++ privateKey

/-- `Account.SubmitCertificate` (src/unnamed/part_004, lines 193-279).
`internal.PostJSON` (src/unnamed/part_002) turns a non-2xx HTTP status into
an error return, so such a status takes the submission-failed path here.
As in the cepaccount variant, the public key is stored on the account before
the network call and `latestTxID` is taken from the server response.
`blockchain` is the configuration argument of the Go method. -/
def Account.SubmitCertificate (a : Account) (data privateKey timestamp : String)
    (sha256 : String → List Nat) (blockchain : String) (resp : HttpResult) :
    Account × Option (List (String × JVal)) × Option String :=
  let jsonCert := Cep.certJson (StringToHex data) a.latestTxID "" ""
  if !IsValidPrivateKey privateKey then
    ({ a with lastError := "Signing failed" }, none, some "invalid private key")
  else
    let a1 := { a with publicKey := GetPublicKey privateKey }
    let payload := Cep.txPayloadJson jsonCert (HexFix blockchain) (HexFix a1.address)
        (HexFix a1.publicKey) a1.nonce a1.codeVersion timestamp
    let _signature := hexEncodeBytes (sha256 payload)
    match resp with
    | .err =>
      ({ a1 with lastError := "Transaction submission failed" }, none,
        some "failed to post certificate submission")
    | .ok status body =>
      if status < 200 ∨ 300 ≤ status then
        ({ a1 with lastError := "Transaction submission failed" }, none,
          some "failed to post certificate submission")
      else
        match body with
        | none =>
          ({ a1 with lastError := "Failed to parse JSON response" }, none,
            some "could not parse submit certificate response")
        | some result =>
          match result.lookup "Result" with
          | some (.num 200) =>
            match result.lookup "Response" with
            | some (.obj response) =>
              match response.lookup "TxID" with
              | some (.str txID) =>
                ({ a1 with latestTxID := txID, nonce := a1.nonce + 1 }, some result, none)
              | _ => (a1, some result, none)
            | _ => (a1, some result, none)
          | _ =>
            ({ a1 with lastError := "Certificate submission failed" }, some result,
              some "Certificate submission failed")

/-- Terminal statuses of the services-variant wait (src/unnamed/part_004,
line 358): `"Confirmed"`, `"Failed"` or `"Success"`. -/
def isTerminalOutcome (outcome : List (String × JVal)) : Bool :=
  match outcome.lookup "Response" with
  | some (.obj response) =>
    match response.lookup "Status" with
    | some (.str status) =>
      status == "Confirmed" || status == "Failed" || status == "Success"
    | _ => false
  | _ => false

/-- Polling loop of `WaitForTransactionOutcome` (src/unnamed/part_004,
lines 351-375), same time model as `Cep.waitLoop`. Unlike the cepaccount
variant, a poll that returns an error aborts the wait immediately with that
error (lines 363-366). -/
def waitLoop (polls : Nat → Option (List (String × JVal)))
    (timeoutSec intervalSec : Nat) : Nat → Nat → WaitResult
  | _, 0 => .fuelOut
  | k, fuel + 1 =>
    match polls k with
    | none => .errored
    | some outcome =>
      if isTerminalOutcome outcome then .resolved outcome
      else if k * intervalSec > timeoutSec then .timeout
      else waitLoop polls timeoutSec intervalSec (k + 1) fuel

/-- `Account.WaitForTransactionOutcome` (src/unnamed/part_004,
lines 351-375). -/
def WaitForTransactionOutcome (polls : Nat → Option (List (String × JVal)))
    (timeoutSec intervalSec : Nat) : WaitResult :=
  waitLoop polls timeoutSec intervalSec 0 (timeoutSec + 2)

end Svc

/-- The responses on which `Main.CEPAccount.SubmitCertificate` takes its
success branch: HTTP status 200, decodable JSON-object body, `Result` field
equal to the number 200. Everything else is a failure response. -/
def Main.isSuccessResp : HttpResult → Bool
  | .ok 200 (some body) =>
    match body.lookup "Result" with
    | some (.num 200) => true
    | _ => false
  | _ => false

/-- The responses on which `Cep.Account.SubmitCertificate` takes its success
branch: decodable body with `Result` = 200 — the HTTP status code is not
inspected by that variant. -/
def Cep.isSuccessResp : HttpResult → Bool
  | .ok _ (some body) =>
    match body.lookup "Result" with
    | some (.num 200) => true
    | _ => false
  | _ => false

/-- Whether one poll result reports a terminal status in the sense of the
cepaccount wait; an erroring poll (`none`) reports no status at all. -/
def Cep.isTerminalOutcomeOpt : Option (List (String × JVal)) → Bool
  | some b => Cep.isTerminalOutcome b
  | none => false

/-- Fixture: an arbitrary digest function for concrete instantiations. -/
def shaZ : String → List Nat := fun _ => [0]

/-- Fixture: an arbitrary signing primitive for concrete instantiations. -/
def signZ : List Nat → List Nat → String := fun _ _ => "sig"

/-- Fixture: an address of `0x` followed by 39 hex characters. -/
def addr39 : String := String.mk ('0' :: 'x' :: List.replicate 39 'a')

/-- Fixture: a decoded poll body whose status is `Pending`. -/
def pendingBody : List (String × JVal) :=
  [("Result", .num 200), ("Response", .obj [("Status", .str "Pending")])]

/-- Fixture: a decoded poll body whose status is `Confirmed`. -/
def confirmedBody : List (String × JVal) :=
  [("Result", .num 200), ("Response", .obj [("Status", .str "Confirmed")])]

/-- Fixture: a poll sequence that errors on the first query and reports
`Confirmed` from the second query on. -/
def pollsErrThenConfirmed : Nat → Option (List (String × JVal)) :=
  fun k => if k = 0 then none else some confirmedBody

/-- Fixture: a poll sequence that reports `Pending` forever. -/
def pollsPendingForever : Nat → Option (List (String × JVal)) :=
  fun _ => some pendingBody

/-- Fixture: a poll sequence whose every query errors. -/
def pollsAlwaysErr : Nat → Option (List (String × JVal)) :=
  fun _ => none

/-- Fixture: an opened main-variant account. -/
def mainOpen : Main.CEPAccount :=
  { Main.NewCEPAccount with Address := "0xaa" }

/-- Fixture: an opened cepaccount-variant account with nonce 7. -/
def cepOpen : Cep.Account :=
  { Cep.NewCEPAccount with address := "0xaa", nonce := 7 }

/-- Fixture: a services-variant account with zero values except the library
version (`NewCEPAccount` of src/unnamed/part_004, lines 33-39). -/
def svcNew : Svc.Account where
  address := ""
  publicKey := ""
  info := none
  codeVersion := "1.0.13"
  lastError := ""
  nagUrl := ""
  networkNode := ""
  blockchain := ""
  latestTxID := ""
  nonce := 0
  data := []
  intervalSec := 0

/-- Fixture: a valid 64-hex-character private key that is none of the
degenerate patterns rejected by `Svc.IsValidPrivateKey`. -/
def goodKey : String := String.mk (List.replicate 63 'a' ++ ['b'])

/-! ## Helper lemmas -/

theorem lowerChar_hex (c : Char) (h : isHexDigit c = true) :
    isLowerHexDigit (lowerChar c) = true := by
  unfold isHexDigit at h
  unfold lowerChar isLowerHexDigit
  simp only [Bool.or_eq_true, Bool.and_eq_true, decide_eq_true_eq] at h
  rcases h with (h | h) | h
  · rw [if_neg (by omega)]
    simp only [Bool.or_eq_true, Bool.and_eq_true, decide_eq_true_eq]
    omega
  · rw [if_neg (by omega)]
    simp only [Bool.or_eq_true, Bool.and_eq_true, decide_eq_true_eq]
    omega
  · rw [if_pos (by omega)]
    have hv : (Char.ofNat (c.toNat + 32)).toNat = c.toNat + 32 := by
      unfold Char.ofNat
      rw [dif_pos]
      · rfl
      · exact Or.inl (by omega)
    simp only [Bool.or_eq_true, Bool.and_eq_true, decide_eq_true_eq, hv]
    omega

theorem upperChar_hexDigitChar : ∀ n < 16, isUpperHexDigit (upperChar (hexDigitChar n)) = true := by
  decide

theorem flatMap_encode_length (bs : List Nat) :
    (bs.flatMap encodeByteChars).length = 2 * bs.length := by
  induction bs with
  | nil => rfl
  | cons b rest ih =>
    simp only [List.flatMap_cons, List.length_append, List.length_cons, ih, encodeByteChars,
      List.length_nil]
    omega

theorem all_upper_encode (bs : List Nat) (h : ∀ b ∈ bs, b < 256) :
    ((bs.flatMap encodeByteChars).map upperChar).all isUpperHexDigit = true := by
  simp only [List.all_map, List.all_eq_true, Function.comp]
  intro c hc
  rw [List.mem_flatMap] at hc
  obtain ⟨b, hb, hcb⟩ := hc
  have hb256 := h b hb
  unfold encodeByteChars at hcb
  simp only [List.mem_cons, List.mem_singleton, List.not_mem_nil, or_false] at hcb
  rcases hcb with h1 | h1
  · subst h1; exact upperChar_hexDigitChar _ (by omega)
  · subst h1; exact upperChar_hexDigitChar _ (Nat.mod_lt _ (by norm_num))

theorem hexFixChars_even (l : List Char) : (hexFixChars l).length % 2 = 0 := by
  simp only [hexFixChars]
  split
  · next hodd => simp only [List.length_cons]; omega
  · next heven => omega

theorem hexFixChars_lower (l : List Char) (h : (strip0x l).all isHexDigit = true) :
    (hexFixChars l).all isLowerHexDigit = true := by
  have hm : ((strip0x l).map lowerChar).all isLowerHexDigit = true := by
    simp only [List.all_map, List.all_eq_true, Function.comp] at h ⊢
    intro c hc
    exact lowerChar_hex c (h c hc)
  simp only [hexFixChars]
  split
  · simp only [List.all_cons, Bool.and_eq_true]
    exact ⟨by decide, hm⟩
  · exact hm

theorem string_append_ne_empty (s t : String) (hs : s ≠ "") : s ++ t ≠ "" := by
  cases s with
  | mk ls =>
    cases t with
    | mk lt =>
      intro h
      apply hs
      have h2 : ls ++ lt = ([] : List Char) := congrArg String.data h
      have h3 : ls = [] := (List.append_eq_nil.mp h2).1
      rw [h3]

/-! ## Claim theorems -/

/-- C9 (amended): for every input string, `StringToHex` produces an
even-length, UPPER-case hexadecimal string (the encoder upper-cases its
output, it is not lower-case as claimed), and `HexFix` always produces an
even-length string, which is lower-case hex whenever the input after the
optional `0x`/`0X` prefix is hexadecimal. -/
theorem spec_C9 :
    (∀ s : String, (StringToHex s).length % 2 = 0 ∧
      (StringToHex s).data.all isUpperHexDigit = true) ∧
    (∀ h : String, (HexFix h).length % 2 = 0 ∧
      ((strip0x h.data).all isHexDigit = true →
        (HexFix h).data.all isLowerHexDigit = true)) := by
  constructor
  · intro s
    constructor
    · show (((s.data.map fun c => c.toNat % 256).flatMap encodeByteChars).map
        upperChar).length % 2 = 0
      rw [List.length_map, flatMap_encode_length]
      omega
    · show (((s.data.map fun c => c.toNat % 256).flatMap encodeByteChars).map
        upperChar).all isUpperHexDigit = true
      apply all_upper_encode
      intro b hb
      rw [List.mem_map] at hb
      obtain ⟨c, _, hcb⟩ := hb
      omega
  · intro h
    unfold HexFix
    split
    · exact ⟨rfl, fun _ => rfl⟩
    · exact ⟨hexFixChars_even h.data, fun hx => hexFixChars_lower h.data hx⟩

/-- C9 witness: concrete instance of the amended claim, with the hex-input
hypothesis discharged at `"0xAB"`. -/
theorem spec_C9_w :
    (strip0x ("0xAB".data)).all isHexDigit = true ∧
      (HexFix "0xAB").data.all isLowerHexDigit = true :=
  ⟨by decide, (spec_C9.2 "0xAB").2 (by decide)⟩

/-- C9 counterexample: `StringToHex "z"` is `"7A"`, which is not lower-case
hex, refuting the claim that `toHex` always produces lower-case hex. -/
theorem spec_C9_cex :
    StringToHex "z" = "7A" ∧ ("7A").data.all isLowerHexDigit = false := by
  constructor
  · decide
  · decide

/-- C1: for every open account, the transaction ID computed inside
`Main.CEPAccount.SubmitCertificate` (the value stored into `LatestTxID` on
the success path) is the hex-encoded SHA-256 digest of the separator-free
concatenation `HexFix blockchain ++ HexFix address ++ HexFix address ++
payloadHex ++ decimal nonce ++ timestamp`, where `payloadHex` is the hex
encoding of the JSON serialization of the action object
`(Action: "CP_CERTIFICATE", Data: hex(certificateText))`. -/
theorem spec_C1 (a : Main.CEPAccount) (pdata privateKeyHex timestamp : String)
    (sha256 : String → List Nat) (ecdsaSign : List Nat → List Nat → String)
    (body : List (String × JVal)) (keyBytes : List Nat)
    (hopen : a.Address ≠ "")
    (hkey : hexDecode (HexFix privateKeyHex) = some keyBytes)
    (hres : body.lookup "Result" = some (.num 200)) :
    (a.SubmitCertificate pdata privateKeyHex timestamp sha256 ecdsaSign
        (.ok 200 (some body))).LatestTxID =
      hexEncodeBytes (sha256 (HexFix a.Blockchain ++ HexFix a.Address ++ HexFix a.Address ++
        StringToHex (Main.payloadJson pdata) ++ toString a.Nonce ++ timestamp)) := by
  simp only [Main.CEPAccount.SubmitCertificate, Main.CEPAccount.signData, hopen, hkey, hres,
    if_neg hopen]
  simp [hopen, hkey, hres, Main.CEPAccount.submitTxID, Main.CEPAccount.submitStrToHash]

/-- C1 witness: the theorem applied at a concrete open account, key, digest
function and result-200 response. -/
theorem spec_C1_w :
    (mainOpen.SubmitCertificate "d" "aa" "t" shaZ signZ
        (.ok 200 (some [("Result", .num 200)]))).LatestTxID =
      hexEncodeBytes (shaZ (HexFix mainOpen.Blockchain ++ HexFix mainOpen.Address ++
        HexFix mainOpen.Address ++ StringToHex (Main.payloadJson "d") ++
        toString mainOpen.Nonce ++ "t")) :=
  spec_C1 mainOpen "d" "aa" "t" shaZ signZ [("Result", .num 200)] [170]
    (by decide) (by decide) rfl

/-- C2 (amended): in the main variant, a result-200 response makes
`SubmitCertificate` store the locally computed transaction ID in
`LatestTxID` and increment the nonce by exactly one, and these are the only
two mutations; in the cepaccount and services variants `latestTxID` is
instead taken from the server's `Response.TxID`, and nonce/latestTxID are
updated only when that field is present as a string. -/
theorem spec_C2 (a : Main.CEPAccount) (pdata privateKeyHex timestamp : String)
    (sha256 : String → List Nat) (ecdsaSign : List Nat → List Nat → String)
    (body : List (String × JVal)) (keyBytes : List Nat)
    (hopen : a.Address ≠ "")
    (hkey : hexDecode (HexFix privateKeyHex) = some keyBytes)
    (hres : body.lookup "Result" = some (.num 200)) :
    a.SubmitCertificate pdata privateKeyHex timestamp sha256 ecdsaSign
        (.ok 200 (some body)) =
      { a with LatestTxID := a.submitTxID pdata timestamp sha256, Nonce := a.Nonce + 1 } := by
  simp only [Main.CEPAccount.SubmitCertificate, Main.CEPAccount.signData, hopen, hkey, hres,
    if_neg hopen]
  simp [hopen, hkey, hres]

/-- C2 witness: the theorem applied at a concrete open account and
result-200 response. -/
theorem spec_C2_w :
    mainOpen.SubmitCertificate "e" "ab" "t2" shaZ signZ
        (.ok 200 (some [("Result", .num 200)])) =
      { mainOpen with LatestTxID := mainOpen.submitTxID "e" "t2" shaZ,
                      Nonce := mainOpen.Nonce + 1 } :=
  spec_C2 mainOpen "e" "ab" "t2" shaZ signZ [("Result", .num 200)] [171]
    (by decide) (by decide) rfl

/-- C2 counterexample: in the cepaccount variant a result-200 response whose
`Response` carries no `TxID` mutates neither nonce nor `latestTxID` (so the
nonce is not incremented by exactly one on every result-200 call), and when
`Response.TxID` is present, `latestTxID` is set to that server-supplied
value, not to a locally computed hash. -/
theorem spec_C2_cex :
    (cepOpen.SubmitCertificate "d" "key" "ts" shaZ
        (.ok 200 (some [("Result", .num 200), ("Response", .obj [])]))).1.nonce = 7 ∧
    (cepOpen.SubmitCertificate "d" "key" "ts" shaZ
        (.ok 200 (some [("Result", .num 200), ("Response", .obj [])]))).1.latestTxID = "" ∧
    (cepOpen.SubmitCertificate "d" "key" "ts" shaZ
        (.ok 200 (some [("Result", .num 200),
          ("Response", .obj [("TxID", .str "servertx")])]))).1.latestTxID = "servertx" := by
  refine ⟨rfl, rfl, rfl⟩

/-- C3 (amended): on every failing submission the nonce and latestTxID are
unchanged and an error is surfaced (via the `LastError` field in the main
variant, as an error value in the cepaccount variant) — where, for the
cepaccount variant, "failing" cannot include the HTTP status: that variant
never inspects the status code, so a non-2xx reply whose body still carries
result 200 is treated as success. -/
theorem spec_C3 :
    (∀ (a : Main.CEPAccount) (pdata privateKeyHex timestamp : String)
        (sha256 : String → List Nat) (ecdsaSign : List Nat → List Nat → String)
        (resp : HttpResult), Main.isSuccessResp resp = false →
      (a.SubmitCertificate pdata privateKeyHex timestamp sha256 ecdsaSign resp).Nonce = a.Nonce ∧
      (a.SubmitCertificate pdata privateKeyHex timestamp sha256 ecdsaSign resp).LatestTxID =
        a.LatestTxID ∧
      (a.SubmitCertificate pdata privateKeyHex timestamp sha256 ecdsaSign resp).LastError ≠ "") ∧
    (∀ (b : Cep.Account) (data privateKey timestamp : String)
        (sha256 : String → List Nat) (resp : HttpResult), Cep.isSuccessResp resp = false →
      (b.SubmitCertificate data privateKey timestamp sha256 resp).1.nonce = b.nonce ∧
      (b.SubmitCertificate data privateKey timestamp sha256 resp).1.latestTxID = b.latestTxID ∧
      (b.SubmitCertificate data privateKey timestamp sha256 resp).2.2 ≠ none) := by
  constructor
  · intro a pdata privateKeyHex timestamp sha256 ecdsaSign resp hfail
    rcases resp with _ | ⟨status, body⟩
    · simp only [Main.CEPAccount.SubmitCertificate]
      split
      · refine ⟨rfl, rfl, ?_⟩
        show ("Account is not open" : String) ≠ ""
        decide
      · split
        · refine ⟨rfl, rfl, ?_⟩
          show ("failed to sign data: invalid private key hex string" : String) ≠ ""
          decide
        · refine ⟨rfl, rfl, ?_⟩
          show ("failed to submit certificate: transport error" : String) ≠ ""
          decide
    · simp only [Main.CEPAccount.SubmitCertificate]
      split
      · refine ⟨rfl, rfl, ?_⟩
        show ("Account is not open" : String) ≠ ""
        decide
      · split
        · refine ⟨rfl, rfl, ?_⟩
          show ("failed to sign data: invalid private key hex string" : String) ≠ ""
          decide
        · split
          · refine ⟨rfl, rfl, ?_⟩
            exact string_append_ne_empty _ _ (by decide)
          · next hstatus =>
            split
            · refine ⟨rfl, rfl, ?_⟩
              show ("failed to decode response JSON" : String) ≠ ""
              decide
            · next responseMap =>
              split
              · next heq =>
                exfalso
                have h200 : status = 200 := by omega
                subst h200
                simp [Main.isSuccessResp, heq] at hfail
              · next hne =>
                split
                · refine ⟨rfl, rfl, ?_⟩
                  exact string_append_ne_empty _ _ (by decide)
                · refine ⟨rfl, rfl, ?_⟩
                  show ("certificate submission failed with non-200 result code" : String) ≠ ""
                  decide
  · intro b data privateKey timestamp sha256 resp hfail
    rcases resp with _ | ⟨status, body⟩
    · simp [Cep.Account.SubmitCertificate]
    · rcases body with _ | result
      · simp [Cep.Account.SubmitCertificate]
      · simp only [Cep.Account.SubmitCertificate]
        split
        · next heq =>
          exfalso
          simp [Cep.isSuccessResp, heq] at hfail
        · next hne =>
          simp

/-- C3 witness: the theorem applied to both variants at a concrete transport
failure. -/
theorem spec_C3_w :
    ((mainOpen.SubmitCertificate "d" "aa" "t" shaZ signZ .err).Nonce = mainOpen.Nonce ∧
      (mainOpen.SubmitCertificate "d" "aa" "t" shaZ signZ .err).LatestTxID =
        mainOpen.LatestTxID ∧
      (mainOpen.SubmitCertificate "d" "aa" "t" shaZ signZ .err).LastError ≠ "") ∧
    ((cepOpen.SubmitCertificate "d" "k" "t" shaZ .err).1.nonce = cepOpen.nonce ∧
      (cepOpen.SubmitCertificate "d" "k" "t" shaZ .err).1.latestTxID = cepOpen.latestTxID ∧
      (cepOpen.SubmitCertificate "d" "k" "t" shaZ .err).2.2 ≠ none) :=
  ⟨spec_C3.1 mainOpen "d" "aa" "t" shaZ signZ .err rfl,
   spec_C3.2 cepOpen "d" "k" "t" shaZ .err rfl⟩

/-- C3 counterexample: in the cepaccount variant a call whose HTTP status is
500 (non-2xx) but whose body carries result 200 increments the nonce, stores
the server transaction ID and returns no error — so it is not the case that
every non-2xx call leaves the state unchanged and surfaces an error. -/
theorem spec_C3_cex :
    (cepOpen.SubmitCertificate "d" "k" "t" shaZ
        (.ok 500 (some [("Result", .num 200),
          ("Response", .obj [("TxID", .str "srv")])]))).1.nonce = 8 ∧
    (cepOpen.SubmitCertificate "d" "k" "t" shaZ
        (.ok 500 (some [("Result", .num 200),
          ("Response", .obj [("TxID", .str "srv")])]))).1.latestTxID = "srv" ∧
    (cepOpen.SubmitCertificate "d" "k" "t" shaZ
        (.ok 500 (some [("Result", .num 200),
          ("Response", .obj [("TxID", .str "srv")])]))).2.2 = none := by
  refine ⟨rfl, rfl, rfl⟩

theorem svcWaitLoop_errored (polls : Nat → Option (List (String × JVal)))
    (T I : Nat) : ∀ (n k fuel : Nat),
    polls (k + n) = none →
    (∀ j, j < n → ∃ b, polls (k + j) = some b ∧ Svc.isTerminalOutcome b = false ∧
      (k + j) * I ≤ T) →
    n < fuel →
    Svc.waitLoop polls T I k fuel = .errored := by
  intro n
  induction n with
  | zero =>
    intro k fuel herr _ hfuel
    match fuel, hfuel with
    | fuel + 1, _ =>
      rw [Nat.add_zero] at herr
      simp only [Svc.waitLoop, herr]
  | succ m ih =>
    intro k fuel herr hpre hfuel
    match fuel, hfuel with
    | fuel + 1, hfuel =>
      obtain ⟨b, hb, hterm, hle⟩ := hpre 0 (Nat.succ_pos m)
      rw [Nat.add_zero] at hb
      rw [Nat.add_zero] at hle
      have hne : ¬ (k * I > T) := by omega
      simp only [Svc.waitLoop, hb, hterm]
      simp only [Bool.false_eq_true, if_false, hne, ite_false]
      apply ih (k + 1) fuel
      · have : k + 1 + m = k + (m + 1) := by omega
        rw [this]
        exact herr
      · intro j hj
        obtain ⟨b2, hb2, ht2, hle2⟩ := hpre (j + 1) (by omega)
        refine ⟨b2, ?_, ht2, ?_⟩
        · have : k + 1 + j = k + (j + 1) := by omega
          rw [this]
          exact hb2
        · have : k + 1 + j = k + (j + 1) := by omega
          rw [this]
          exact hle2
      · omega

/-- C4 (amended): only in the services variant does a query-level error
terminate the wait immediately with that error; the cepaccount variant (and
the main variant's poller) swallows poll errors and keeps polling until a
terminal status or the timeout. Stated for the services variant: if every
poll before index `k` is error-free, non-terminal and within the deadline,
and poll `k` errors, the wait returns the error. -/
theorem spec_C4 (polls : Nat → Option (List (String × JVal))) (T I k : Nat)
    (hI : 1 ≤ I)
    (herr : polls k = none)
    (hpre : ∀ j, j < k → ∃ b, polls j = some b ∧ Svc.isTerminalOutcome b = false ∧
      j * I ≤ T) :
    Svc.WaitForTransactionOutcome polls T I = .errored := by
  apply svcWaitLoop_errored polls T I k 0 (T + 2)
  · rw [Nat.zero_add]
    exact herr
  · intro j hj
    obtain ⟨b, hb, ht, hle⟩ := hpre j hj
    refine ⟨b, ?_, ht, ?_⟩
    · rw [Nat.zero_add]; exact hb
    · rw [Nat.zero_add]; exact hle
  · rcases Nat.eq_zero_or_pos k with h0 | hpos
    · omega
    · obtain ⟨b, _, _, hle⟩ := hpre (k - 1) (by omega)
      have hk1 : k - 1 ≤ (k - 1) * I := Nat.le_mul_of_pos_right _ hI
      omega

/-- C4 witness: a wait whose very first poll errors returns the error. -/
theorem spec_C4_w : Svc.WaitForTransactionOutcome pollsAlwaysErr 5 1 = .errored :=
  spec_C4 pollsAlwaysErr 5 1 0 (by decide) rfl
    (fun j hj => absurd hj (Nat.not_lt_zero j))

/-- C4 counterexample: in the cepaccount variant the first poll errors and
the wait nevertheless continues — the second poll reports `Confirmed` and
the wait resolves successfully instead of terminating with the error. -/
theorem spec_C4_cex :
    Cep.WaitForTransactionOutcome pollsErrThenConfirmed 5 1 = .resolved confirmedBody := rfl

theorem cepWaitLoop_timeout (polls : Nat → Option (List (String × JVal)))
    (T I : Nat) (hI : 1 ≤ I)
    (hnt : ∀ k, Cep.isTerminalOutcomeOpt (polls k) = false) :
    ∀ fuel k, 1 ≤ fuel → T + 2 ≤ fuel + k → Cep.waitLoop polls T I k fuel = .timeout := by
  intro fuel
  induction fuel with
  | zero => intro k h1 _; omega
  | succ f ih =>
    intro k _ hbound
    have hstep : (if k * I > T then WaitResult.timeout
        else Cep.waitLoop polls T I (k + 1) f) = .timeout := by
      by_cases hto : k * I > T
      · rw [if_pos hto]
      · rw [if_neg hto]
        apply ih
        · have : k ≤ k * I := Nat.le_mul_of_pos_right _ hI
          omega
        · omega
    have hk := hnt k
    cases hpk : polls k with
    | none => simp only [Cep.waitLoop, hpk]; exact hstep
    | some b =>
      rw [hpk] at hk
      have hb : Cep.isTerminalOutcome b = false := hk
      simp only [Cep.waitLoop, hpk, hb]
      simpa using hstep

/-- C5: if no poll ever reports a terminal status, the cepaccount
`WaitForTransactionOutcome` does not loop forever — it stops and fails with
the timeout error once `timeoutSec` has elapsed (interval of at least one
second, as in the account's defaults). -/
theorem spec_C5 (polls : Nat → Option (List (String × JVal))) (T I : Nat)
    (hI : 1 ≤ I)
    (hnt : ∀ k, Cep.isTerminalOutcomeOpt (polls k) = false) :
    Cep.WaitForTransactionOutcome polls T I = .timeout :=
  cepWaitLoop_timeout polls T I hI hnt (T + 2) 0 (by omega) (by omega)

/-- C5 witness: an always-`Pending` poll stream with `timeoutSec = 1`,
`intervalSec = 1` times out. -/
theorem spec_C5_w : Cep.WaitForTransactionOutcome pollsPendingForever 1 1 = .timeout :=
  spec_C5 pollsPendingForever 1 1 (by decide) (fun _ => rfl)

/-- C6 (amended): the nonce never decreases under `SubmitCertificate` (it is
unchanged or incremented by one); `UpdateAccount` either leaves the nonce
unchanged or sets it to `serverNonce + 1`, where `serverNonce` is the `Nonce`
field of the result-200 response — a value that may lie below the current
nonce, so the nonce can decrease across `UpdateAccount`. -/
theorem spec_C6 :
    (∀ (a : Main.CEPAccount) (pdata privateKeyHex timestamp : String)
        (sha256 : String → List Nat) (ecdsaSign : List Nat → List Nat → String)
        (resp : HttpResult),
      a.Nonce ≤ (a.SubmitCertificate pdata privateKeyHex timestamp sha256 ecdsaSign
        resp).Nonce) ∧
    (∀ (a : Main.CEPAccount) (resp : HttpResult),
      (a.UpdateAccount resp).1.Nonce = a.Nonce ∨
      ∃ body n, resp = .ok 200 (some body) ∧
        body.lookup "Result" = some (.num 200) ∧
        Main.nonceField (body.lookup "Response") = some n ∧
        (a.UpdateAccount resp).1.Nonce = n + 1) := by
  constructor
  · intro a pdata privateKeyHex timestamp sha256 ecdsaSign resp
    rcases resp with _ | ⟨status, body⟩ <;>
      simp only [Main.CEPAccount.SubmitCertificate] <;>
      (repeat' split) <;> simp
  · intro a resp
    rcases resp with _ | ⟨status, body⟩
    · left; simp only [Main.CEPAccount.UpdateAccount]; split <;> rfl
    · rcases body with _ | responseData
      · left
        simp only [Main.CEPAccount.UpdateAccount]
        split
        · rfl
        · split
          · rfl
          · rfl
      · simp only [Main.CEPAccount.UpdateAccount]
        split
        · left; rfl
        · split
          · next hstat => left; rfl
          · next hstat =>
            have h200 : status = 200 := by omega
            subst h200
            split
            · next heq =>
              split
              · next n hn =>
                right
                exact ⟨responseData, n, rfl, heq, hn, rfl⟩
              · left; rfl
            · left; rfl
            · left; rfl
            · left
              split
              · rfl
              · rfl
            · left
              split
              · rfl
              · rfl
            · left; rfl

/-- C6 counterexample: an account with nonce 5 whose `UpdateAccount` receives
the server nonce 0 ends with nonce 1 — the nonce decreased. -/
theorem spec_C6_cex :
    (({ Main.NewCEPAccount with Address := "0xaa", Nonce := 5 }).UpdateAccount
        (.ok 200 (some [("Result", .num 200),
          ("Response", .obj [("Nonce", .num 0)])]))).1.Nonce = 1 ∧
    (1 : Int) < 5 := by
  refine ⟨rfl, by decide⟩

/-- C7 (amended): only the services variant validates the address in `Open`:
there, `0x` + 39 hex characters fails with the invalid-address error and
leaves the address unchanged, and `0x` + 40 hex characters succeeds. The
main variant's `Open` rejects only the empty string, and the cepaccount
variant's `Open` accepts anything. -/
theorem spec_C7 (hexPart : List Char) (a : Svc.Account) :
    (hexPart.length = 39 → hexPart.all isHexDigit = true →
      (a.Open (String.mk ('0' :: 'x' :: hexPart))).2 = false ∧
      (a.Open (String.mk ('0' :: 'x' :: hexPart))).1.address = a.address ∧
      (a.Open (String.mk ('0' :: 'x' :: hexPart))).1.lastError =
        "Invalid address format") ∧
    (hexPart.length = 40 → hexPart.all isHexDigit = true →
      (a.Open (String.mk ('0' :: 'x' :: hexPart))).2 = true ∧
      (a.Open (String.mk ('0' :: 'x' :: hexPart))).1.address =
        String.mk ('0' :: 'x' :: hexPart)) := by
  constructor
  · intro h39 hhex
    have hval : Svc.IsValidAddress (String.mk ('0' :: 'x' :: hexPart)) = false := by
      simp [Svc.IsValidAddress, h39]
    simp [Svc.Account.Open, hval]
  · intro h40 hhex
    have hval : Svc.IsValidAddress (String.mk ('0' :: 'x' :: hexPart)) = true := by
      simp [Svc.IsValidAddress, h40, hhex]
    simp [Svc.Account.Open, hval]

/-- C7 witness: the theorem applied at 39 and 40 concrete hex characters. -/
theorem spec_C7_w :
    ((svcNew.Open (String.mk ('0' :: 'x' :: List.replicate 39 'a'))).2 = false ∧
      (svcNew.Open (String.mk ('0' :: 'x' :: List.replicate 39 'a'))).1.address =
        svcNew.address ∧
      (svcNew.Open (String.mk ('0' :: 'x' :: List.replicate 39 'a'))).1.lastError =
        "Invalid address format") ∧
    ((svcNew.Open (String.mk ('0' :: 'x' :: List.replicate 40 'a'))).2 = true ∧
      (svcNew.Open (String.mk ('0' :: 'x' :: List.replicate 40 'a'))).1.address =
        String.mk ('0' :: 'x' :: List.replicate 40 'a')) :=
  ⟨(spec_C7 (List.replicate 39 'a') svcNew).1 (by simp) (by decide),
   (spec_C7 (List.replicate 40 'a') svcNew).2 (by simp) (by decide)⟩

/-- C7 counterexample: the main variant's `Open` accepts `0x` + 39 hex
characters (it stores the address, reports success and records no error),
so it is not the case that `Open` fails on such addresses in every
variant. -/
theorem spec_C7_cex :
    (Main.NewCEPAccount.Open addr39).2 = true ∧
    (Main.NewCEPAccount.Open addr39).1.Address = addr39 ∧
    (Main.NewCEPAccount.Open addr39).1.LastError = "" := by
  refine ⟨rfl, rfl, rfl⟩

/-- C8 (amended): in the cepaccount variant, `Close` resets every field
(except the never-mutated `codeVersion`) to the value a fresh account gets,
regardless of prior state; in the main variant, `Close` zeroes the fields
but leaves `LastError` untouched and resets the NAG URL, blockchain and
polling interval to empty/zero rather than to their constructor defaults. -/
theorem spec_C8 :
    (∀ b : Cep.Account,
      Cep.Account.Close b = { Cep.NewCEPAccount with codeVersion := b.codeVersion }) ∧
    (∀ a : Main.CEPAccount,
      (Main.CEPAccount.Close a).LastError = a.LastError ∧
      (Main.CEPAccount.Close a).NAGURL = "" ∧
      (Main.CEPAccount.Close a).Blockchain = "" ∧
      (Main.CEPAccount.Close a).IntervalSec = 0 ∧
      (Main.CEPAccount.Close a).Address = "" ∧
      (Main.CEPAccount.Close a).PublicKey = "" ∧
      (Main.CEPAccount.Close a).Info = none ∧
      (Main.CEPAccount.Close a).NetworkNode = "" ∧
      (Main.CEPAccount.Close a).LatestTxID = "" ∧
      (Main.CEPAccount.Close a).Nonce = 0) := by
  constructor
  · intro b
    cases b
    rfl
  · intro a
    exact ⟨rfl, rfl, rfl, rfl, rfl, rfl, rfl, rfl, rfl, rfl⟩

/-- C8 counterexample: in the main variant, `Close` does not restore the
documented defaults — a recorded error survives `Close`, and the NAG URL is
cleared to the empty string instead of the constructor's default. -/
theorem spec_C8_cex :
    (Main.CEPAccount.Close { Main.NewCEPAccount with LastError := "boom" }).LastError =
      "boom" ∧
    ("boom" : String) ≠ Main.NewCEPAccount.LastError ∧
    (Main.CEPAccount.Close Main.NewCEPAccount).NAGURL ≠ Main.NewCEPAccount.NAGURL := by
  refine ⟨rfl, by decide, by decide⟩

/-- C10: in the variants that derive a public key during submission, the
account's `publicKey` field is overwritten with the key derived from the
supplied private key before the network call — so it stays overwritten on
every failing submission; only nonce and latestTxID are preserved on error
paths. (In the services variant the private key must first pass the format
check, which precedes the derivation.) -/
theorem spec_C10 :
    (∀ (b : Cep.Account) (data privateKey timestamp : String)
        (sha256 : String → List Nat) (resp : HttpResult),
      (b.SubmitCertificate data privateKey timestamp sha256 resp).1.publicKey =
        Cep.getPublicKey privateKey ∧
      ((b.SubmitCertificate data privateKey timestamp sha256 resp).2.2 ≠ none →
        (b.SubmitCertificate data privateKey timestamp sha256 resp).1.nonce = b.nonce ∧
        (b.SubmitCertificate data privateKey timestamp sha256 resp).1.latestTxID =
          b.latestTxID)) ∧
    (∀ (a : Svc.Account) (data privateKey timestamp blockchain : String)
        (sha256 : String → List Nat) (resp : HttpResult),
      Svc.IsValidPrivateKey privateKey = true →
      (a.SubmitCertificate data privateKey timestamp sha256 blockchain resp).1.publicKey =
        Svc.GetPublicKey privateKey ∧
      ((a.SubmitCertificate data privateKey timestamp sha256 blockchain resp).2.2 ≠ none →
        (a.SubmitCertificate data privateKey timestamp sha256 blockchain resp).1.nonce =
          a.nonce ∧
        (a.SubmitCertificate data privateKey timestamp sha256 blockchain resp).1.latestTxID =
          a.latestTxID)) := by
  constructor
  · intro b data privateKey timestamp sha256 resp
    rcases resp with _ | ⟨status, body⟩
    · exact ⟨rfl, fun _ => ⟨rfl, rfl⟩⟩
    · rcases body with _ | result
      · exact ⟨rfl, fun _ => ⟨rfl, rfl⟩⟩
      · simp only [Cep.Account.SubmitCertificate]
        split
        · next heq =>
          split
          · next hobj =>
            split
            · next htx => exact ⟨rfl, fun h => absurd rfl h⟩
            · exact ⟨rfl, fun h => absurd rfl h⟩
          · exact ⟨rfl, fun h => absurd rfl h⟩
        · exact ⟨rfl, fun _ => ⟨rfl, rfl⟩⟩
  · intro a data privateKey timestamp blockchain sha256 resp hkey
    rcases resp with _ | ⟨status, body⟩ <;>
      simp only [Svc.Account.SubmitCertificate, hkey, Bool.not_true, Bool.false_eq_true,
        if_false, ite_false]
    · simp
    · by_cases hst : status < 200 ∨ 300 ≤ status
      · rw [if_pos hst]
        exact ⟨rfl, fun _ => ⟨rfl, rfl⟩⟩
      · rw [if_neg hst]
        rcases body with _ | result
        · exact ⟨rfl, fun _ => ⟨rfl, rfl⟩⟩
        · dsimp only
          split
          · next heq =>
            split
            · next hobj =>
              split
              · next htx => exact ⟨rfl, fun h => absurd rfl h⟩
              · exact ⟨rfl, fun h => absurd rfl h⟩
            · exact ⟨rfl, fun h => absurd rfl h⟩
          · exact ⟨rfl, fun _ => ⟨rfl, rfl⟩⟩

/-- C10 witness: concrete failing submissions in both variants, with the
error-path hypothesis discharged at a transport failure, with the key-format
hypothesis discharged at a concrete valid key. -/
theorem spec_C10_w :
    ((cepOpen.SubmitCertificate "d" "k" "t" shaZ .err).1.publicKey =
        Cep.getPublicKey "k" ∧
      (cepOpen.SubmitCertificate "d" "k" "t" shaZ .err).1.nonce = cepOpen.nonce) ∧
    ((svcNew.SubmitCertificate "d" goodKey "t" shaZ "bc" .err).1.publicKey =
        Svc.GetPublicKey goodKey ∧
      (svcNew.SubmitCertificate "d" goodKey "t" shaZ "bc" .err).1.nonce = svcNew.nonce) :=
  ⟨⟨(spec_C10.1 cepOpen "d" "k" "t" shaZ .err).1,
    ((spec_C10.1 cepOpen "d" "k" "t" shaZ .err).2 (by decide)).1⟩,
   ⟨(spec_C10.2 svcNew "d" goodKey "t" "bc" shaZ .err (by decide)).1,
    ((spec_C10.2 svcNew "d" goodKey "t" "bc" shaZ .err (by decide)).2 (by decide)).1⟩⟩
